import Mathlib

/-!
Verification development for the PPT generation pipeline core:
the Template Registry Extractor (`parser.py`, `registry_builder.py`),
the Content Styling Engine (`beautifier.py`) and the Deterministic
Renderer (`injector.py`).

The Python sources are shallowly embedded: pure functions become Lean
functions over `List Char` / `String`, `Int` and an exact fraction type
`Frac` (Python floats are modelled by exact rational arithmetic; the
square roots appearing in the chord-width formula are handled by
comparing squares, which decides the same comparisons exactly).
Optional / absent dictionary entries become `Option` fields, and
`dict.get(k, d)` becomes `Option.getD`.
-/

deriving instance DecidableEq for Except

/-! ## Exact fraction arithmetic

`Frac` is an unnormalised fraction `num / den` over `Int`.  Every
operation below keeps `den` positive as long as both operands have
positive denominators (all divisions performed by the embedded code are
by positive quantities).  Comparisons are by cross multiplication.  -/

structure Frac where
  num : Int
  den : Int
deriving DecidableEq, Repr

def Frac.ofInt (n : Int) : Frac := ⟨n, 1⟩

def Frac.add (a b : Frac) : Frac := ⟨a.num * b.den + b.num * a.den, a.den * b.den⟩

def Frac.sub (a b : Frac) : Frac := ⟨a.num * b.den - b.num * a.den, a.den * b.den⟩

def Frac.mul (a b : Frac) : Frac := ⟨a.num * b.num, a.den * b.den⟩

def Frac.neg (a : Frac) : Frac := ⟨-a.num, a.den⟩

/-- Exact division; the sign of the divisor is moved to the numerator so
that the denominator stays positive. -/
def Frac.dv (a b : Frac) : Frac :=
  let n := a.num * b.den
  let d := a.den * b.num
  if d < 0 then ⟨-n, -d⟩ else ⟨n, d⟩

def Frac.lt (a b : Frac) : Bool := a.num * b.den < b.num * a.den

def Frac.le (a b : Frac) : Bool := a.num * b.den ≤ b.num * a.den

def Frac.absF (a : Frac) : Frac := ⟨|a.num|, |a.den|⟩

/-- Python `int(x)` on the (nonnegative) fraction results appearing in
this development: truncation toward zero, i.e. floor for nonnegative
values.  `Int.fdiv` is floor division. -/
def Frac.toInt (a : Frac) : Int := a.num.fdiv a.den

/-! ## Python string helpers -/

/-- Characters Python's `str.split()` / `\s` treat as whitespace
(ASCII range; the embedded inputs are ASCII). -/
def isPySpace (c : Char) : Bool :=
  c = ' ' || c = '\t' || c = '\n' || c = '\x0d' || c = '\x0b' || c = '\x0c'

/-- Python `str.strip()` on a character list. -/
def pyStripL (l : List Char) : List Char :=
  ((l.dropWhile isPySpace).reverse.dropWhile isPySpace).reverse

def pyStrip (s : String) : String := String.mk (pyStripL s.toList)

/-- Python `str.split()` (split on whitespace runs, dropping empties);
`acc` holds the current word reversed. -/
def pySplitGo : List Char → List Char → List String
  | [], acc => if acc.isEmpty then [] else [String.mk acc.reverse]
  | c :: rest, acc =>
    if isPySpace c then
      if acc.isEmpty then pySplitGo rest []
      else String.mk acc.reverse :: pySplitGo rest []
    else pySplitGo rest (c :: acc)

def pySplit (s : String) : List String := pySplitGo s.toList []

/-- Does `pat` match the front of the second list? -/
def matchesAt : List Char → List Char → Bool
  | [], _ => true
  | _ :: _, [] => false
  | p :: ps, c :: cs => p = c && matchesAt ps cs

/-- Does the pattern `pat` occur contiguously at position `i`?
(Python `s.startswith(pat, i)`.) -/
def startsWithAt (s pat : List Char) (i : Nat) : Bool := matchesAt pat (s.drop i)

/-- Python lowercase (ASCII). -/
def pyLower (s : String) : String := String.mk (s.toList.map Char.toLower)

/-- Python `sub in s` (contiguous substring test). -/
def strContainsGo (sub : List Char) : List Char → Bool
  | [] => sub.isEmpty
  | c :: rest => startsWithAt (c :: rest) sub 0 || strContainsGo sub rest

def strContains (s sub : String) : Bool :=
  sub.isEmpty || strContainsGo sub.toList s.toList

/-! ## Styled runs and the markdown parser (`beautifier.parse_markdown`) -/

/-- A styled run `{text, bold, italic}`. -/
structure Run where
  text : String
  bold : Bool
  italic : Bool
deriving DecidableEq, Repr

/-- `beautifier._is_boundary(text, idx)`: true iff `idx` is at a
non-alphanumeric boundary (or start/end of the string). -/
def _is_boundary (s : List Char) (idx : Nat) : Bool :=
  if idx = 0 || s.length ≤ idx then true
  else !(((s.getD (idx - 1) ' ').isAlphanum) && ((s.getD idx ' ').isAlphanum))

/-- `flush()` inside `parse_markdown`: append the buffer as a run with
the current flags (no-op on an empty buffer). -/
def pmFlush (bold italic : Bool) (buf : List Char) (runs : List Run) : List Run :=
  if buf.isEmpty then runs else runs ++ [⟨String.mk buf, bold, italic⟩]

/-- The scanning loop of `parse_markdown`.  `s` is the whole input, `i`
the current index, `buf` the pending literal characters.  `fuel`
bounds the recursion; the loop advances `i` by at least one per step, so
`fuel = s.length` suffices (when fuel runs out the loop body can no
longer execute, which for sufficient fuel coincides with `i ≥ s.length`).
Returns the runs plus the final `bold_on` / `italic_on` flags. -/
def pmGo (s : List Char) : Nat → Nat → Bool → Bool → List Char → List Run →
    List Run × Bool × Bool
  | 0, _, bold, italic, buf, runs => (pmFlush bold italic buf runs, bold, italic)
  | fuel + 1, i, bold, italic, buf, runs =>
    if i < s.length then
      let ch := s.getD i ' '
      if ch = '\\' && decide (i + 1 < s.length) then
        pmGo s fuel (i + 2) bold italic (buf ++ [s.getD (i + 1) ' ']) runs
      else if startsWithAt s ['*', '*'] i && _is_boundary s i && _is_boundary s (i + 2) then
        pmGo s fuel (i + 2) (!bold) italic [] (pmFlush bold italic buf runs)
      else if ch = '*' && _is_boundary s i && _is_boundary s (i + 1) then
        pmGo s fuel (i + 1) bold (!italic) [] (pmFlush bold italic buf runs)
      else
        pmGo s fuel (i + 1) bold italic (buf ++ [ch]) runs
    else (pmFlush bold italic buf runs, bold, italic)

/-- `beautifier.parse_markdown(text)`; `none` is Python `None`. -/
def parse_markdown (text : Option String) : List Run :=
  match text with
  | none => [⟨"", false, false⟩]
  | some s =>
    if s.isEmpty then [⟨"", false, false⟩]
    else
      let r := pmGo s.toList s.toList.length 0 false false [] []
      if r.2.1 || r.2.2 then
        [⟨String.join (r.1.map Run.text), false, false⟩]
      else if r.1.isEmpty then [⟨"", false, false⟩]
      else r.1

/-! ## Font sizing (`beautifier._determine_font_size`) and alignment -/

def ROLE_TITLE : String := "TITLE"

def ROLE_CONTENT : String := "CONTENT"

def FONT_SIZE_TITLE_SLIDE_MAIN : Int := 44

def FONT_SIZE_TITLE_SLIDE_SUBTITLE : Int := 28

def FONT_SIZE_TITLE_SLIDE_FOOTER : Int := 11

def FONT_SIZE_TITLE_LARGE : Int := 32

def FONT_SIZE_TITLE_SMALL : Int := 28

def FONT_SIZE_BODY_LARGE : Int := 22

def FONT_SIZE_BODY_DEFAULT : Int := 18

def FONT_SIZE_CONTENT_LARGE : Int := 16

def FONT_SIZE_CONTENT_DEFAULT : Int := 14

def FONT_SIZE_FOOTER : Int := 10

def FONT_SIZE_FALLBACK : Int := 16

def AREA_THRESHOLD_TITLE : Frac := ⟨5, 100⟩

def AREA_THRESHOLD_BODY : Frac := ⟨3, 10⟩

def AREA_THRESHOLD_CONTENT : Frac := ⟨15, 100⟩

/-- `beautifier._determine_font_size(role_hint, area_ratio, slide_role)`.
Python's `(role_hint or "")` is the identity on strings except for `""`,
which it maps to `""`; the parameter is a string here. -/
def _determine_font_size (role_hint : String) (area_ratio : Frac)
    (slide_role : String) : Int :=
  let role := pyLower role_hint
  if slide_role = ROLE_TITLE then
    if strContains role "title" || strContains role "header" || strContains role "headline" then
      FONT_SIZE_TITLE_SLIDE_MAIN
    else if strContains role "subtitle" || strContains role "body" then
      FONT_SIZE_TITLE_SLIDE_SUBTITLE
    else if strContains role "footer" then FONT_SIZE_TITLE_SLIDE_FOOTER
    else FONT_SIZE_TITLE_LARGE
  else
    if strContains role "title" || strContains role "header" || strContains role "headline" then
      if Frac.lt AREA_THRESHOLD_TITLE area_ratio then FONT_SIZE_TITLE_LARGE
      else FONT_SIZE_TITLE_SMALL
    else if strContains role "body" then
      if Frac.lt AREA_THRESHOLD_BODY area_ratio then FONT_SIZE_BODY_LARGE
      else FONT_SIZE_BODY_DEFAULT
    else if strContains role "content" then
      if Frac.lt AREA_THRESHOLD_CONTENT area_ratio then FONT_SIZE_CONTENT_LARGE
      else FONT_SIZE_CONTENT_DEFAULT
    else if strContains role "footer" then FONT_SIZE_FOOTER
    else FONT_SIZE_FALLBACK

/-- `beautifier._alignment_for_role(role_hint, semantic_role, slide_role)`;
all three Python parameters default to `None`. -/
def _alignment_for_role (role_hint semantic_role slide_role : Option String) :
    Option String :=
  if slide_role = some ROLE_TITLE || semantic_role = some "title" then some "CENTER"
  else
    let role := pyLower (role_hint.getD "")
    if ["title", "header", "headline", "section-title", "tagline", "caption",
        "quote", "center"].any (fun k => strContains role k) then some "CENTER"
    else if ["number", "value", "metric", "right"].any (fun k => strContains role k) then
      some "RIGHT"
    else none

/-! ## Circular text fitting (`beautifier._fit_text_in_circle`) -/

def TEXT_PADDING_RATIO : Frac := ⟨1, 10⟩

def FONT_SIZE_MIN : Frac := ⟨8, 1⟩

def FONT_SIZE_MAX : Frac := ⟨72, 1⟩

def FIT_PRECISION : Frac := ⟨1, 2⟩

def CHAR_WIDTH_RATIO : Frac := ⟨6, 10⟩

def LINE_HEIGHT_RATIO : Frac := ⟨12, 10⟩

/-- The square of `beautifier._calculate_chord_width(y_offset, radius)`
(with the default `center_y = 0`, as at every call site):
`W(y) = 2 * sqrt(r^2 - y^2)` inside the circle, else `0`.  Squaring
avoids the irrational square root; the comparisons below are performed
on squares, which decides them exactly. -/
def _calculate_chord_width_sq (y_offset radius : Frac) : Frac :=
  if Frac.le radius (Frac.ofInt 0) then Frac.ofInt 0
  else if Frac.le radius (Frac.absF y_offset) then Frac.ofInt 0
  else Frac.mul (Frac.ofInt 4) (Frac.sub (Frac.mul radius radius) (Frac.mul y_offset y_offset))

/-- Decides `w > _calculate_chord_width y_offset radius` for the
(nonnegative) widths compared by the fitting loop: for `w > 0` this is
`w^2 > W(y)^2`, and for chord width `0` it is `w > 0`; both cases are
covered by `0 < w ∧ chordSq < w^2`. -/
def gtChordWidth (w y_offset radius : Frac) : Bool :=
  Frac.lt (Frac.ofInt 0) w &&
    Frac.lt (_calculate_chord_width_sq y_offset radius) (Frac.mul w w)

/-- One pass of the word-wrapping loop inside `_fit_text_in_circle` at
candidate font size `mid`: walks the words, wrapping when the current
line exceeds the chord width at its vertical position, and returns the
final `fits` flag.  `curLine` is Python's `current_line`, `y` is
`current_y`, `lh` is `line_height`. -/
def circleWrapGo (mid eff_r lh : Frac) : List String → List String → Frac → Bool
  | [], curLine, y =>
    if curLine.isEmpty then true
    else !(Frac.lt eff_r (Frac.add y lh))
  | w :: ws, curLine, y =>
    let lineW := Frac.dv
      (Frac.mul (Frac.ofInt (Int.ofNat ((curLine.map (fun x => x.length + 1)).sum)))
        (Frac.mul mid CHAR_WIDTH_RATIO))
      (Frac.ofInt 960)
    if !curLine.isEmpty &&
        gtChordWidth lineW (Frac.add y (Frac.dv lh (Frac.ofInt 2))) eff_r then
      if Frac.lt eff_r (Frac.add (Frac.add y lh) lh) then false
      else circleWrapGo mid eff_r lh ws [w] (Frac.add y lh)
    else circleWrapGo mid eff_r lh ws (curLine ++ [w]) y

/-- Does the whole text fit in the circle at font size `mid`?
(`line_height = mid * LINE_HEIGHT_RATIO / 720`, start at `y = -eff_r`.) -/
def circleFitsAt (words : List String) (eff_r mid : Frac) : Bool :=
  let lh := Frac.dv (Frac.mul mid LINE_HEIGHT_RATIO) (Frac.ofInt 720)
  circleWrapGo mid eff_r lh words [] (Frac.neg eff_r)

/-- The binary search of `_fit_text_in_circle`: while
`max - min > FIT_PRECISION`, test the midpoint and move the matching
bound.  The gap halves exactly each iteration, so `fuel = 64` is far
more than the 7 iterations needed from the initial `[8, 72]` range. -/
def circleSearchGo (words : List String) (eff_r : Frac) :
    Nat → Frac → Frac → Frac → Frac
  | 0, _, _, best => best
  | fuel + 1, minF, maxF, best =>
    if Frac.lt FIT_PRECISION (Frac.sub maxF minF) then
      let mid := Frac.dv (Frac.add minF maxF) (Frac.ofInt 2)
      if circleFitsAt words eff_r mid then
        circleSearchGo words eff_r fuel mid maxF mid
      else
        circleSearchGo words eff_r fuel minF mid best
    else best

/-- `beautifier._fit_text_in_circle(text, runs, radius, padding_ratio)`.
The `runs` argument is accepted but (as in the source) never used by the
fitting computation. -/
def _fit_text_in_circle (text : String) (runs : List Run)
    (radius padding_ratio : Frac) : Int :=
  if text.isEmpty || Frac.le radius (Frac.ofInt 0) then Frac.toInt FONT_SIZE_MIN
  else
    let eff_r := Frac.mul radius (Frac.sub (Frac.ofInt 1) padding_ratio)
    if Frac.le eff_r (Frac.ofInt 0) then Frac.toInt FONT_SIZE_MIN
    else
      Frac.toInt (circleSearchGo (pySplit text) eff_r 64 FONT_SIZE_MIN FONT_SIZE_MAX
        FONT_SIZE_MIN)

/-! ## Registry extraction (`parser.parse_template_node` geometry,
`registry_builder.derive_role_hint`, layout purpose classification) -/

/-- A raw placeholder record as consumed by the geometric enrichment in
`parse_template_node`; `none` models an absent spatial property
(`shape.get('width') or 0` defaults both `None` and missing to `0`). -/
structure RawShape where
  name : String
  left : Option Int
  top : Option Int
  width : Option Int
  height : Option Int
deriving DecidableEq, Repr

/-- An enriched shape record: the fields of the shape dict that
`derive_role_hint` and the layout-purpose classification read.
(The oval-specific enrichment `is_circular`/`radius` is carried in the
registry geometry, modelled separately by `GeometryRec`.) -/
structure ShapeData where
  name : String
  norm_left : Option Frac
  norm_top : Option Frac
  norm_width : Option Frac
  norm_height : Option Frac
  area_ratio : Option Frac
deriving DecidableEq, Repr

/-- The geometric enrichment of `parse_template_node` for one shape:
normalised positions (guarded by `slide_width > 0` / `slide_height > 0`)
and the area ratio (guarded by `total_area > 0`). -/
def enrichShape (slide_width slide_height : Int) (shape : RawShape) : ShapeData :=
  let width := Frac.ofInt (shape.width.getD 0)
  let height := Frac.ofInt (shape.height.getD 0)
  let left := Frac.ofInt (shape.left.getD 0)
  let top := Frac.ofInt (shape.top.getD 0)
  let total_area := slide_width * slide_height
  { name := shape.name
    norm_left := some (if 0 < slide_width then Frac.dv left (Frac.ofInt slide_width)
      else Frac.ofInt 0)
    norm_top := some (if 0 < slide_height then Frac.dv top (Frac.ofInt slide_height)
      else Frac.ofInt 0)
    norm_width := some (if 0 < slide_width then Frac.dv width (Frac.ofInt slide_width)
      else Frac.ofInt 0)
    norm_height := some (if 0 < slide_height then Frac.dv height (Frac.ofInt slide_height)
      else Frac.ofInt 0)
    area_ratio := some (if 0 < total_area then
      Frac.dv (Frac.mul width height) (Frac.ofInt total_area) else Frac.ofInt 0) }

/-- `registry_builder.derive_role_hint(shape)`: deterministic role from
normalised geometry (absent values default to 0 via `shape.get(k, 0)`). -/
def derive_role_hint (shape : ShapeData) : String :=
  let norm_top := shape.norm_top.getD (Frac.ofInt 0)
  let norm_height := shape.norm_height.getD (Frac.ofInt 0)
  let area_ratio := shape.area_ratio.getD (Frac.ofInt 0)
  if Frac.lt norm_top ⟨2, 10⟩ && Frac.lt norm_height ⟨2, 10⟩ then "title"
  else if Frac.lt ⟨8, 10⟩ norm_top then "footer"
  else if Frac.lt ⟨3, 10⟩ area_ratio then "body"
  else if Frac.le ⟨2, 10⟩ norm_top && Frac.le norm_top ⟨8, 10⟩ &&
      Frac.lt ⟨1, 10⟩ area_ratio then "content"
  else "content"

/-- The layout-purpose classification of `build_registry_node` (lines
88-113): slot counts by derived role, image slots by `'Picture'` in the
shape name, then the ordered rules. -/
def layout_purpose (shapes : List ShapeData) : String :=
  let title_slots := (shapes.filter (fun s => derive_role_hint s = "title")).length
  let body_slots := (shapes.filter (fun s => derive_role_hint s = "body")).length
  let content_slots := (shapes.filter (fun s => derive_role_hint s = "content")).length
  let image_slots := (shapes.filter (fun s => strContains s.name "Picture")).length
  let has_columns := 2 ≤ content_slots
  let has_large_title := shapes.any (fun s =>
    Frac.lt ⟨5, 100⟩ (s.area_ratio.getD (Frac.ofInt 0)) && derive_role_hint s = "title")
  let has_only_title := 1 ≤ title_slots ∧ body_slots = 0 ∧ content_slots ≤ 1
  if has_only_title ∧ has_large_title then "TITLE_SLIDE"
  else if 0 < image_slots then "VISUAL_SLIDE"
  else if has_columns ∧ 2 ≤ content_slots then "COMPARISON_SLIDE"
  else if 1 ≤ body_slots then "CONTENT_SLIDE"
  else "GENERAL_CONTENT"

/-! ## Template header detection (`injector._is_template_header`)

The three `HEADER_PATTERNS` regexes are compiled to deterministic
matchers.  At every juncture of the patterns the adjacent character
classes are disjoint (digits / whitespace / word characters, literal
words followed by whitespace), so greedy maximal-run matching decides
exactly the same strings as the backtracking regex engine. -/

def isWordChar (c : Char) : Bool := c.isAlphanum || c = '_'

/-- Maximal run of characters satisfying `p`: its length and the rest. -/
def takeRun (p : Char → Bool) : List Char → Nat × List Char
  | [] => (0, [])
  | c :: rest =>
    if p c then
      let r := takeRun p rest
      (r.1 + 1, r.2)
    else (0, c :: rest)

/-- Match a literal word (the text is already lowercased). -/
def matchLit : List Char → List Char → Option (List Char)
  | [], rest => some rest
  | _ :: _, [] => none
  | p :: ps, c :: cs => if p = c then matchLit ps cs else none

/-- Match `\s+` (at least one whitespace, then greedily all). -/
def matchSpaces1 : List Char → Option (List Char)
  | [] => none
  | c :: rest => if isPySpace c then some (takeRun isPySpace rest).2 else none

/-- Match `\d{m..n}\s`-style digit runs: a maximal digit run whose
length lies in `[lo, hi]`. -/
def matchDigitRun (lo hi : Nat) (l : List Char) : Option (List Char) :=
  let r := takeRun Char.isDigit l
  if lo ≤ r.1 ∧ r.1 ≤ hi then some r.2 else none

/-- Pattern `Presentation\s+title\s+Page\s+\d+` anchored at the head of
`l` (text lowercased for `re.IGNORECASE`). -/
def headerP1At (l : List Char) : Bool :=
  (Option.bind (matchLit "presentation".toList l) fun r1 =>
    Option.bind (matchSpaces1 r1) fun r2 =>
      Option.bind (matchLit "title".toList r2) fun r3 =>
        Option.bind (matchSpaces1 r3) fun r4 =>
          Option.bind (matchLit "page".toList r4) fun r5 =>
            Option.bind (matchSpaces1 r5) fun r6 =>
              let d := takeRun Char.isDigit r6
              if 1 ≤ d.1 then some d.2 else none).isSome

/-- `re.search` of pattern 1: try every start position. -/
def headerP1Search : List Char → Bool
  | [] => false
  | c :: rest => headerP1At (c :: rest) || headerP1Search rest

/-- Pattern `^\s*Page\s+\d+\s+\d{1,2}\s+\w+\s+\d{4}\s*$`. -/
def headerP2 (l : List Char) : Bool :=
  (Option.bind (matchLit "page".toList (takeRun isPySpace l).2) fun r1 =>
    Option.bind (matchSpaces1 r1) fun r2 =>
      Option.bind (matchDigitRun 1 1000000 r2) fun r3 =>
        Option.bind (matchSpaces1 r3) fun r4 =>
          Option.bind (matchDigitRun 1 2 r4) fun r5 =>
            Option.bind (matchSpaces1 r5) fun r6 =>
              let w := takeRun isWordChar r6
              if 1 ≤ w.1 then
                Option.bind (matchSpaces1 w.2) fun r7 =>
                  Option.bind (matchDigitRun 4 4 r7) fun r8 =>
                    if (takeRun isPySpace r8).2.isEmpty then some () else none
              else none).isSome

/-- Pattern `^\s*\d{1,2}\s+\w+\s+\d{4}\s*$`. -/
def headerP3 (l : List Char) : Bool :=
  (Option.bind (matchDigitRun 1 2 (takeRun isPySpace l).2) fun r1 =>
    Option.bind (matchSpaces1 r1) fun r2 =>
      let w := takeRun isWordChar r2
      if 1 ≤ w.1 then
        Option.bind (matchSpaces1 w.2) fun r3 =>
          Option.bind (matchDigitRun 4 4 r3) fun r4 =>
            if (takeRun isPySpace r4).2.isEmpty then some () else none
      else none).isSome

/-- `injector._is_template_header(text, placeholder_type)`. -/
def _is_template_header (text : String) (placeholder_type : Option String) : Bool :=
  let text_stripped := pyStrip text
  if text_stripped.toList.isEmpty then false
  else if placeholder_type = some "TITLE" || placeholder_type = some "CENTER_TITLE" ||
      placeholder_type = some "SUBTITLE" then false
  else
    let l := (pyLower text_stripped).toList
    headerP1Search l || headerP2 l || headerP3 l

/-! ## Style Specifications and the Injector's per-field rendering -/

/-- A Style Specification for one content field.  `none` in `runs` /
`bullets` means the dict key is absent (`"bullets" in style` is key
presence, `style.get("runs") or []` defaults absence to `[]`).  A
bullet item `{"runs": rs}` is modelled by its run list. -/
structure StyleSpec where
  runs : Option (List Run)
  bullets : Option (List (List Run))
  font_size : Option Int
  alignment : Option String
  semantic_role : Option String
  vertical_anchor : Option String
deriving DecidableEq, Repr

/-- Paragraph text produced by the run-emission loops: each run with
non-empty `text` is appended (empty texts contribute nothing either
way). -/
def renderedRunsText (runs : List Run) : String :=
  String.join (runs.map (fun r => if r.text.toList.isEmpty then "" else r.text))

/-- Text-frame text of a list of paragraphs (python-pptx joins
paragraphs with a newline). -/
def joinPars (ps : List String) : String := String.intercalate "\n" ps

/-- The semantic-path per-field rendering of `surgical_injection_node`
(injector.py lines 284-416), as its effect on the target region's text.
`existingText` is the region's current (template default) text;
`placeholderFound` models whether `find_placeholder_by_id` succeeded
and the shape has a text frame.  The `_is_template_header` inspection
on this path only prints a diagnostic and does not branch, so it does
not appear in the text effect. -/
def injectFieldSemantic (style : StyleSpec) (existingText : String)
    (placeholderFound : Bool) : String :=
  if style.semantic_role = some "image_query" then existingText
  else if !placeholderFound then existingText
  else
    let runs := style.runs.getD []
    let bullets := style.bullets.getD []
    let has_runs := runs.any (fun r => !(pyStrip r.text).toList.isEmpty)
    let has_bullets := !bullets.isEmpty
    if !(has_runs || has_bullets) then existingText
    else
      if style.bullets.isSome then joinPars (bullets.map renderedRunsText)
      else if style.runs.isSome then renderedRunsText runs
      else ""

/-- Run emission of the legacy slot-id path: runs whose text matches a
header pattern are skipped, non-empty texts are appended. -/
def legacyRunsText (runs : List Run) : String :=
  String.join (runs.map (fun r =>
    if _is_template_header r.text none then ""
    else if r.text.toList.isEmpty then "" else r.text))

/-- The legacy slot-id per-field rendering of `surgical_injection_node`
(injector.py lines 426-509), as its effect on the target region's text:
the region is cleared unconditionally once the placeholder is found; if
the existing text matched a header pattern and the spec has no
non-whitespace runs, it is left empty. -/
def injectFieldLegacy (style : StyleSpec) (existingText : String)
    (placeholder_type : Option String) (placeholderFound : Bool) : String :=
  if !placeholderFound then existingText
  else
    let runsR := style.runs.getD []
    if _is_template_header existingText placeholder_type then
      if runsR.isEmpty || runsR.all (fun r => (pyStrip r.text).toList.isEmpty) then ""
      else legacyRunsText runsR
    else legacyRunsText runsR

/-! ## The Beautifier node (`beautifier.beautifier_node` and
`_beautify_semantic_content`) -/

/-- A Python value occurring as a content-dict entry: `None`, a string,
or a list of strings (bullet lists). -/
inductive SemVal where
  | none_ : SemVal
  | text : String → SemVal
  | items : List String → SemVal
deriving DecidableEq, Repr

/-- The apostrophe character used by Python list repr. -/
def pyQuote : String := String.mk [Char.ofNat 39]

/-- Python `str` of a list of plain strings (quote escaping is not
modelled; no claim evaluates this on strings containing quotes). -/
def pyListRepr (l : List String) : String :=
  "[" ++ String.intercalate ", " (l.map (fun s => pyQuote ++ s ++ pyQuote)) ++ "]"

/-- Python `str(raw_content)` as used by the semantic path (note:
`None` stringifies to `"None"` there). -/
def semValStr : SemVal → String
  | SemVal.none_ => "None"
  | SemVal.text s => s
  | SemVal.items l => pyListRepr l

/-- `"" if raw_text is None else str(raw_text)` of the legacy path. -/
def semValStrLegacy : SemVal → String
  | SemVal.none_ => ""
  | SemVal.text s => s
  | SemVal.items l => pyListRepr l

/-- Registry slot geometry (`slot.get('geometry', {})`). -/
structure GeometryRec where
  area_ratio : Option Frac
  is_circular : Option Bool
  radius : Option Frac
deriving DecidableEq, Repr

/-- Registry slot metadata, restricted to the fields the Beautifier
reads. -/
structure SlotMeta where
  slot_id : Option Int
  role_hint : Option String
  geometry : Option GeometryRec
  max_chars : Option Nat
deriving DecidableEq, Repr

/-- A registry layout, restricted to the fields the Beautifier reads
(`layout_index` is a mandatory key in the source). -/
structure LayoutRec where
  layout_index : Int
  layout_name : Option String
  slots : Option (List SlotMeta)
deriving DecidableEq, Repr

structure Registry where
  layouts : List LayoutRec
deriving DecidableEq, Repr

/-- A manifest slide's content: a dict of field entries, or a non-dict
value (which the Beautifier coerces to empty with a warning). -/
inductive ContentPayload where
  | dict : List (String × SemVal) → ContentPayload
  | notDict : ContentPayload
deriving DecidableEq, Repr

/-- A manifest slide as consumed by `beautifier_node`. -/
structure ManifestSlide where
  layout_index : Option Int
  slide_role : Option String
  content : Option ContentPayload
  semantic_mapping : Option (List (String × List SlotMeta))
  background_image : Option (List (String × String))
deriving DecidableEq, Repr

/-- A beautified slide (`_is_semantic` is the flag the semantic branch
adds; the legacy branch omits the key, i.e. `false`). -/
structure StyledSlide where
  layout_index : Int
  content : List (String × StyleSpec)
  slide_role : String
  background_image : List (String × String)
  is_semantic : Bool
deriving DecidableEq, Repr

/-- `config.FORCE_FONT_SIZE_LAYOUTS` (default environment value). -/
def FORCE_FONT_SIZE_LAYOUTS : List String := ["KPI_TILE", "METRIC_CARD"]

/-- Python dict assignment `d[k] = v` on an insertion-ordered dict
modelled as an association list: overwrite in place or append. -/
def dictSet (d : List (String × StyleSpec)) (k : String) (v : StyleSpec) :
    List (String × StyleSpec) :=
  if d.any (fun p => p.1 = k) then d.map (fun p => if p.1 = k then (k, v) else p)
  else d ++ [(k, v)]

def strStartsWithUnderscore (s : String) : Bool :=
  match s.toList with
  | c :: _ => c = '_'
  | [] => false

/-- The Style Specification built by one `_beautify_semantic_content`
iteration for a resolved slot: font size (only for layouts configured
to force explicit sizing), alignment, styled runs or bullet items, and
the vertical anchor added for title fields on title slides. -/
def semanticStyleSpec (layout : LayoutRec) (slide_role : String) (slot : SlotMeta)
    (semantic_role : String) (raw : SemVal) : StyleSpec :=
  let geometry := slot.geometry.getD ⟨none, none, none⟩
  let role_hint := slot.role_hint.getD semantic_role
  let font_size : Option Int :=
    if FORCE_FONT_SIZE_LAYOUTS.contains (layout.layout_name.getD "") then
      some (_determine_font_size role_hint (geometry.area_ratio.getD ⟨1, 10⟩) slide_role)
    else none
  let alignment := _alignment_for_role (some role_hint) (some semantic_role) (some slide_role)
  let vertical_anchor : Option String :=
    if slide_role = ROLE_TITLE ∧ semantic_role = "title" then some "MIDDLE" else none
  match raw with
  | SemVal.items l =>
    if semantic_role = "bullets" then
      ⟨none, some (l.map (fun b => parse_markdown (some b))), font_size,
        alignment, some semantic_role, vertical_anchor⟩
    else
      ⟨some (parse_markdown (some (pyListRepr l))), none, font_size,
        alignment, some semantic_role, vertical_anchor⟩
  | v =>
    ⟨some (parse_markdown (some (semValStr v))), none, font_size,
      alignment, some semantic_role, vertical_anchor⟩

/-- One iteration of the `_beautify_semantic_content` loop (beautifier.py
lines 409-485) over `(semantic_role, raw_content)`, updating the styled
dict `acc`: metadata keys and `image_query` are skipped, as are roles
with no mapped slot or a slot without `slot_id`. -/
def beautifySemanticEntry (layout : LayoutRec) (slide_role : String)
    (semantic_mapping : List (String × List SlotMeta))
    (acc : List (String × StyleSpec)) (entry : String × SemVal) :
    List (String × StyleSpec) :=
  if strStartsWithUnderscore entry.1 then acc
  else if entry.1 = "image_query" then acc
  else
    match ((semantic_mapping.find? (fun p => p.1 = entry.1)).map Prod.snd).getD [] with
    | [] => acc
    | slot :: _ =>
      match slot.slot_id with
      | none => acc
      | some slot_id =>
        dictSet acc (toString slot_id) (semanticStyleSpec layout slide_role slot entry.1 entry.2)

/-- `beautifier._beautify_semantic_content` (the `slide_idx` parameter
is only used for logging and is omitted). -/
def _beautify_semantic_content (semantic_content : List (String × SemVal))
    (layout : LayoutRec) (slide_role : String)
    (semantic_mapping : List (String × List SlotMeta)) : List (String × StyleSpec) :=
  semantic_content.foldl (beautifySemanticEntry layout slide_role semantic_mapping) []

/-- Python `int(key)` on a string key as used by `_safe_int`:
optionally signed digit string (with surrounding whitespace), else
`None`. -/
def _safe_int (s : String) : Option Int :=
  let l := pyStripL s.toList
  let core : Option (Bool × List Char) :=
    match l with
    | '-' :: rest => some (true, rest)
    | '+' :: rest => some (false, rest)
    | rest => some (false, rest)
  match core with
  | some (neg, ds) =>
    if ds.isEmpty || !ds.all Char.isDigit then none
    else
      let v : Int := Int.ofNat (ds.foldl (fun a c => a * 10 + (c.toNat - 48)) 0)
      some (if neg then -v else v)
  | none => none

/-- The `slot_meta_by_id` dict lookup: built in slot order with later
duplicates overwriting earlier ones, keys are the slots' integer ids. -/
def slotMetaById (slots : List SlotMeta) (sid : Option Int) : Option SlotMeta :=
  match sid with
  | none => none
  | some k => slots.reverse.find? (fun sm => sm.slot_id = some k)

/-- One iteration of the legacy slot-id styling loop of
`beautifier_node` (beautifier.py lines 583-642).  The `max_chars`
length warning is a print without behavioural effect and is omitted. -/
def beautifyLegacyEntry (layout : LayoutRec) (slide_role : String)
    (acc : List (String × StyleSpec)) (entry : String × SemVal) :
    List (String × StyleSpec) :=
  let slot_key := entry.1
  let slot_meta := slotMetaById (layout.slots.getD []) (_safe_int slot_key)
  let text_str := semValStrLegacy entry.2
  let runs := parse_markdown (some text_str)
  match slot_meta with
  | some sm =>
    let role_hint := sm.role_hint.getD ""
    let geometry := sm.geometry.getD ⟨none, none, none⟩
    let area_ratio := geometry.area_ratio.getD ⟨1, 10⟩
    let is_circular := geometry.is_circular.getD false
    let font_size : Int :=
      if is_circular then
        match geometry.radius with
        | some radius =>
          if radius.num ≠ 0 ∧ Frac.lt (Frac.ofInt 0) radius then
            _fit_text_in_circle text_str runs radius TEXT_PADDING_RATIO
          else _determine_font_size role_hint area_ratio slide_role
        | none => _determine_font_size role_hint area_ratio slide_role
      else _determine_font_size role_hint area_ratio slide_role
    let alignment := _alignment_for_role (some role_hint) none none
    dictSet acc slot_key ⟨some runs, none, some font_size, alignment, none, none⟩
  | none =>
    dictSet acc slot_key ⟨some runs, none, some FONT_SIZE_FALLBACK, some "LEFT", none, none⟩

def SEMANTIC_KEYS : List String := ["title", "bullets", "body", "image_query", "footer"]

/-- Styling of one manifest slide once its layout (and the layout index
recorded in the output) is fixed. -/
def beautifySlideWith (layout : LayoutRec) (layout_idx : Int)
    (slide : ManifestSlide) : StyledSlide :=
  let slide_role := slide.slide_role.getD ROLE_CONTENT
  let slide_content : List (String × SemVal) :=
    match slide.content with
    | some (ContentPayload.dict es) => es
    | _ => []
  let is_semantic := SEMANTIC_KEYS.any (fun k => slide_content.any (fun e => e.1 = k))
  if is_semantic then
    { layout_index := layout_idx
      content := _beautify_semantic_content slide_content layout slide_role
        (slide.semantic_mapping.getD [])
      slide_role := slide_role
      background_image := slide.background_image.getD []
      is_semantic := true }
  else
    { layout_index := layout_idx
      content := slide_content.foldl (beautifyLegacyEntry layout slide_role) []
      slide_role := slide_role
      background_image := slide.background_image.getD []
      is_semantic := false }

/-- The `layout_by_idx` dict lookup (later duplicate indices overwrite
earlier ones); a `None` manifest index matches no key. -/
def lookupLayout (layouts : List LayoutRec) (idx : Option Int) : Option LayoutRec :=
  match idx with
  | none => none
  | some k => layouts.reverse.find? (fun l => l.layout_index = k)

/-- Per-slide processing of `beautifier_node`: find the layout, falling
back to the first registry layout (and its index) when the manifest
index is unknown. -/
def beautifySlide (layouts : List LayoutRec) (default_layout : LayoutRec)
    (slide : ManifestSlide) : StyledSlide :=
  match lookupLayout layouts slide.layout_index with
  | some layout => beautifySlideWith layout layout.layout_index slide
  | none => beautifySlideWith default_layout default_layout.layout_index slide

/-- `beautifier.beautifier_node`, taking the state's `manifest` and
`registry` entries (the source first raises if either key is missing
from the state; the model receives them directly).  Raising
`ValueError("Registry contains no layouts - cannot beautify")` is the
error case. -/
def beautifier_node (manifest : List ManifestSlide) (registry : Registry) :
    Except String (List StyledSlide) :=
  match registry.layouts with
  | [] => Except.error "Registry contains no layouts - cannot beautify"
  | default_layout :: _ =>
    Except.ok (manifest.map (beautifySlide registry.layouts default_layout))

/-! ## Specification-side companion definitions and concrete instances -/

/-- Modelled from the spec's words (the round-trip output invariant):
the input with its delimiter markers removed — every unescaped `*` is
dropped and every escape sequence `\c` is resolved to `c`. -/
def specDelimitersRemoved : List Char → List Char
  | [] => []
  | c :: rest =>
    if c = '\\' then
      match rest with
      | [] => [c]
      | c2 :: rest2 => c2 :: specDelimitersRemoved rest2
    else if c = '*' then specDelimitersRemoved rest
    else c :: specDelimitersRemoved rest

/-- Concatenation of the texts of a run list, at character level. -/
def concatRunTexts (rs : List Run) : List Char :=
  (rs.map (fun r => r.text.data)).flatten

/-- A one-layout registry used to witness the Beautifier theorems. -/
def wLayout : LayoutRec :=
  ⟨0, some "Title Slide",
    some [⟨some 1, some "title", some ⟨some ⟨1, 10⟩, none, none⟩, some 100⟩]⟩

def wRegistry : Registry := ⟨[wLayout]⟩

/-- A manifest slide whose `layout_index` (999) matches no registry
layout. -/
def wSlideUnknown : ManifestSlide :=
  ⟨some 999, none, some (ContentPayload.dict [("1", SemVal.text "Title")]), none, none⟩

/-- A semantic mapping with a title slot and an image slot, used to
witness the image-query dropping theorem. -/
def wMapping : List (String × List SlotMeta) :=
  [("title", [⟨some 10, some "title", none, none⟩]),
   ("image_query", [⟨some 14, none, none, none⟩])]

/-! ## Theorems -/

theorem concat_pmFlush (b it : Bool) (buf : List Char) (runs : List Run) :
    concatRunTexts (pmFlush b it buf runs) = concatRunTexts runs ++ buf := by
  unfold pmFlush concatRunTexts
  by_cases h : buf.isEmpty
  · simp [h, List.isEmpty_iff.mp h]
  · simp [h]

theorem isBoundary_star_left (s : List Char) (i : Nat) (h : s.getD i ' ' = '*') :
    _is_boundary s i = true := by
  unfold _is_boundary
  by_cases h0 : i = 0
  · simp [h0]
  · by_cases hl : s.length ≤ i
    · simp [h0, hl]
    · have h' : s[i]?.getD ' ' = '*' := by simpa [List.getD] using h
      simp only [h0, hl, if_false, Bool.or_eq_true, decide_eq_true_eq, false_or]
      simp [h']

theorem isBoundary_star_right (s : List Char) (i : Nat) (h : s.getD i ' ' = '*') :
    _is_boundary s (i + 1) = true := by
  unfold _is_boundary
  by_cases hl : s.length ≤ i + 1
  · simp [hl]
  · have h' : s[i]?.getD ' ' = '*' := by simpa [List.getD] using h
    simp [hl, h']

theorem spec_nil : specDelimitersRemoved [] = [] := rfl

theorem spec_cons (c : Char) (l : List Char) :
    specDelimitersRemoved (c :: l) =
      if c = '\\' then
        match l with
        | [] => [c]
        | c2 :: rest2 => c2 :: specDelimitersRemoved rest2
      else if c = '*' then specDelimitersRemoved l
      else c :: specDelimitersRemoved l := by
  rw [specDelimitersRemoved.eq_def]

theorem spec_star (l : List Char) :
    specDelimitersRemoved ('*' :: l) = specDelimitersRemoved l := by
  rw [spec_cons]
  simp

theorem spec_backslash2 (c : Char) (l : List Char) :
    specDelimitersRemoved ('\\' :: c :: l) = c :: specDelimitersRemoved l := by
  rw [spec_cons]
  simp

theorem spec_backslash1 : specDelimitersRemoved ['\\'] = ['\\'] := by
  rw [spec_cons]
  simp

theorem spec_other (c : Char) (l : List Char) (h1 : ¬c = '\\') (h2 : ¬c = '*') :
    specDelimitersRemoved (c :: l) = c :: specDelimitersRemoved l := by
  rw [spec_cons, if_neg h1, if_neg h2]


theorem pmGo_concat (s : List Char) :
    ∀ (fuel i : Nat) (bold italic : Bool) (buf : List Char) (runs : List Run),
    s.length - i ≤ fuel →
    concatRunTexts (pmGo s fuel i bold italic buf runs).1 =
      concatRunTexts runs ++ buf ++ specDelimitersRemoved (s.drop i) := by
  intro fuel
  induction fuel with
  | zero =>
    intro i b it buf runs h
    have hi : s.length ≤ i := by omega
    simp [pmGo, concat_pmFlush, List.drop_eq_nil_of_le hi, spec_nil]
  | succ f ih =>
    intro i b it buf runs h
    by_cases hi : i < s.length
    · have hdrop : s.drop i = s[i] :: s.drop (i + 1) := List.drop_eq_getElem_cons hi
      have hgetD : s.getD i ' ' = s[i] := by
        simp [List.getD, List.getElem?_eq_getElem hi]
      by_cases hbs : s[i] = '\\'
      · by_cases hnext : i + 1 < s.length
        · -- escape branch
          have hdrop1 : s.drop (i + 1) = s[i + 1] :: s.drop (i + 2) :=
            List.drop_eq_getElem_cons hnext
          have hgetD1 : s.getD (i + 1) ' ' = s[i + 1] := by
            simp [List.getD, List.getElem?_eq_getElem hnext]
          have hcond : (decide (s.getD i ' ' = '\\') && decide (i + 1 < s.length)) = true := by
            rw [hgetD, hbs]
            simp [hnext]
          have hstep : pmGo s (f + 1) i b it buf runs =
              pmGo s f (i + 2) b it (buf ++ [s.getD (i + 1) ' ']) runs := by
            simp only [pmGo, if_pos hi, hcond]
            rfl
          rw [hstep, ih (i + 2) b it (buf ++ [s.getD (i + 1) ' ']) runs (by omega)]
          rw [hdrop, hdrop1, hgetD1, hbs, spec_backslash2]
          simp
        · -- lone backslash at the end: literal branch
          have hlast : s.drop (i + 1) = [] := List.drop_eq_nil_of_le (by omega)
          have hcond : (decide (s.getD i ' ' = '\\') && decide (i + 1 < s.length)) = false := by
            simp [hnext]
          have hbold : startsWithAt s ['*', '*'] i = false := by
            unfold startsWithAt
            rw [hdrop]
            simp [matchesAt, hbs]
          have hital : (decide (s.getD i ' ' = '*')) = false := by
            rw [hgetD, hbs]
            decide
          have hstep : pmGo s (f + 1) i b it buf runs =
              pmGo s f (i + 1) b it (buf ++ [s.getD i ' ']) runs := by
            simp only [pmGo, if_pos hi, hcond, hbold, hital]
            rfl
          rw [hstep, ih (i + 1) b it (buf ++ [s.getD i ' ']) runs (by omega)]
          rw [hdrop, hlast, hgetD, hbs, spec_backslash1]
          simp [spec_nil]
      · by_cases hst : s[i] = '*'
        · -- a star: bold or italic toggle, both consume without output
          have hcond : (decide (s.getD i ' ' = '\\') && decide (i + 1 < s.length)) = false := by
            rw [hgetD, hst]
            simp
          have hbl : _is_boundary s i = true :=
            isBoundary_star_left s i (by rw [hgetD, hst])
          have hbr : _is_boundary s (i + 1) = true :=
            isBoundary_star_right s i (by rw [hgetD, hst])
          by_cases hdbl : startsWithAt s ['*', '*'] i = true
          · -- bold branch: s[i+1] is also a star
            have hnext : i + 1 < s.length := by
              by_contra hc
              have : s.drop (i + 1) = [] := List.drop_eq_nil_of_le (by omega)
              unfold startsWithAt at hdbl
              rw [hdrop, this] at hdbl
              simp [matchesAt] at hdbl
            have hdrop1 : s.drop (i + 1) = s[i + 1] :: s.drop (i + 2) :=
              List.drop_eq_getElem_cons hnext
            have hst1 : s[i + 1] = '*' := by
              unfold startsWithAt at hdbl
              rw [hdrop, hdrop1] at hdbl
              simp [matchesAt] at hdbl
              exact hdbl.2.symm
            have hgetD1 : s.getD (i + 1) ' ' = s[i + 1] := by
              simp [List.getD, List.getElem?_eq_getElem hnext]
            have hbr2 : _is_boundary s (i + 2) = true :=
              isBoundary_star_right s (i + 1) (by rw [hgetD1, hst1])
            have hstep : pmGo s (f + 1) i b it buf runs =
                pmGo s f (i + 2) (!b) it [] (pmFlush b it buf runs) := by
              simp only [pmGo, if_pos hi, hcond, hdbl, hbl, hbr2]
              simp
            rw [hstep, ih (i + 2) (!b) it [] (pmFlush b it buf runs) (by omega)]
            rw [hdrop, hdrop1, hst, hst1, concat_pmFlush, spec_star, spec_star]
            simp
          · -- single star: italic branch
            have hital : (decide (s.getD i ' ' = '*')) = true := by
              rw [hgetD, hst]
              decide
            have hdblf : startsWithAt s ['*', '*'] i = false := by
              cases hq : startsWithAt s ['*', '*'] i
              · rfl
              · exact absurd hq hdbl
            have hstep : pmGo s (f + 1) i b it buf runs =
                pmGo s f (i + 1) b (!it) [] (pmFlush b it buf runs) := by
              simp only [pmGo, if_pos hi, hcond, hdblf, hital, hbl, hbr]
              simp
            rw [hstep, ih (i + 1) b (!it) [] (pmFlush b it buf runs) (by omega)]
            rw [hdrop, hst, concat_pmFlush, spec_star]
            simp
        · -- ordinary literal character
          have hcond : (decide (s.getD i ' ' = '\\') && decide (i + 1 < s.length)) = false := by
            rw [hgetD]
            simp [hbs]
          have hstne : ¬('*' = s[i]) := fun hq => hst hq.symm
          have hbold : startsWithAt s ['*', '*'] i = false := by
            unfold startsWithAt
            rw [hdrop]
            simp [matchesAt, hstne]
          have hital : (decide (s.getD i ' ' = '*')) = false := by
            rw [hgetD]
            simp [hst]
          have hstep : pmGo s (f + 1) i b it buf runs =
              pmGo s f (i + 1) b it (buf ++ [s.getD i ' ']) runs := by
            simp only [pmGo, if_pos hi, hcond, hbold, hital]
            rfl
          rw [hstep, ih (i + 1) b it (buf ++ [s.getD i ' ']) runs (by omega)]
          rw [hdrop, hgetD, spec_other _ _ hbs hst]
          simp
    · have hge : s.length ≤ i := by omega
      have hstep : pmGo s (f + 1) i b it buf runs = (pmFlush b it buf runs, b, it) := by
        simp only [pmGo, if_neg hi]
      rw [hstep]
      simp [concat_pmFlush, List.drop_eq_nil_of_le hge, spec_nil]

theorem pmGo_plain (s : List Char) (hs : ∀ c ∈ s, ¬c = '*' ∧ ¬c = '\\') :
    ∀ (fuel i : Nat) (bold italic : Bool) (buf : List Char) (runs : List Run),
    s.length - i ≤ fuel →
    pmGo s fuel i bold italic buf runs =
      (pmFlush bold italic (buf ++ s.drop i) runs, bold, italic) := by
  intro fuel
  induction fuel with
  | zero =>
    intro i b it buf runs h
    have hge : s.length ≤ i := by omega
    rw [List.drop_eq_nil_of_le hge]
    simp [pmGo]
  | succ f ih =>
    intro i b it buf runs h
    by_cases hi : i < s.length
    · have hdrop : s.drop i = s[i] :: s.drop (i + 1) := List.drop_eq_getElem_cons hi
      have hgetD : s.getD i ' ' = s[i] := by
        simp [List.getD, List.getElem?_eq_getElem hi]
      have hmem : s[i] ∈ s := List.getElem_mem hi
      obtain ⟨hst, hbs⟩ := hs _ hmem
      have hcond : (decide (s.getD i ' ' = '\\') && decide (i + 1 < s.length)) = false := by
        rw [hgetD]
        simp [hbs]
      have hstne : ¬('*' = s[i]) := fun hq => hst hq.symm
      have hbold : startsWithAt s ['*', '*'] i = false := by
        unfold startsWithAt
        rw [hdrop]
        simp [matchesAt, hstne]
      have hital : (decide (s.getD i ' ' = '*')) = false := by
        rw [hgetD]
        simp [hst]
      have hstep : pmGo s (f + 1) i b it buf runs =
          pmGo s f (i + 1) b it (buf ++ [s.getD i ' ']) runs := by
        simp only [pmGo, if_pos hi, hcond, hbold, hital]
        rfl
      rw [hstep, ih (i + 1) b it (buf ++ [s.getD i ' ']) runs (by omega), hdrop, hgetD]
      simp
    · have hge : s.length ≤ i := by omega
      rw [List.drop_eq_nil_of_le hge]
      simp [pmGo, if_neg hi]

theorem stringJoin_runs (rs : List Run) :
    String.join (rs.map Run.text) = String.mk (concatRunTexts rs) := by
  rw [String.join_eq]
  unfold concatRunTexts
  rw [List.map_map]
  rfl

theorem stringJoin_singleton (x : String) : String.join [x] = x := by
  cases x with
  | mk d =>
    rw [String.join_eq]
    try simp

theorem toList_ne_nil_of_not_isEmpty (s : String) (h : ¬s.isEmpty = true) :
    ¬s.toList = [] := by
  intro hnil
  apply h
  have hs0 : s = "" := by
    cases s with
    | mk d =>
      have hd : d = [] := hnil
      rw [hd]
  rw [hs0]
  rfl

theorem mk_toList (s : String) : String.mk s.toList = s := by
  cases s with
  | mk d => rfl

/-- Claim C7 (amended round-trip). -/
theorem C7_markdown_round_trip :
    (∀ s : String, (∀ c ∈ s.toList, ¬c = '*' ∧ ¬c = '\\') →
      parse_markdown (some s) = [⟨s, false, false⟩]) ∧
    (∀ s : String,
      String.join ((parse_markdown (some s)).map Run.text) =
        String.mk (specDelimitersRemoved s.toList)) := by
  constructor
  · intro s hs
    by_cases hemp : s.isEmpty = true
    · rw [(String.isEmpty_iff s).mp hemp]
      rfl
    · have hne : ¬s.toList = [] := toList_ne_nil_of_not_isEmpty s hemp
      simp only [parse_markdown]
      rw [if_neg hemp,
        pmGo_plain s.toList hs s.toList.length 0 false false [] [] (by omega)]
      simp only [List.drop_zero, List.nil_append]
      rw [show pmFlush false false s.toList [] = [⟨String.mk s.toList, false, false⟩] from by
        unfold pmFlush
        rw [if_neg (by simpa using hne)]
        rfl]
      simp [mk_toList]
  · intro s
    by_cases hemp : s.isEmpty = true
    · rw [(String.isEmpty_iff s).mp hemp]
      rfl
    · have hcat := pmGo_concat s.toList s.toList.length 0 false false [] [] (by omega)
      rcases hq : pmGo s.toList s.toList.length 0 false false [] [] with ⟨runs1, b1, it1⟩
      rw [hq] at hcat
      simp only [List.drop_zero, List.nil_append] at hcat
      have hcat' : concatRunTexts runs1 = specDelimitersRemoved s.toList := by
        simpa [concatRunTexts] using hcat
      simp only [parse_markdown]
      rw [if_neg hemp, hq]
      by_cases hflag : (b1 || it1) = true
      · simp only [hflag, if_true]
        simp only [List.map_cons, List.map_nil]
        rw [stringJoin_singleton, stringJoin_runs, hcat']
      · rw [if_neg hflag]
        by_cases hre : runs1.isEmpty = true
        · rw [if_pos hre]
          have hrn : runs1 = [] := List.isEmpty_iff.mp hre
          rw [← hcat', hrn]
          rfl
        · rw [if_neg hre, stringJoin_runs, hcat']

/-- Claim C2, behaviour of the code at the failing input: the boundary
check compares the delimiter character itself (never alphanumeric), so
it never blocks a toggle, and `fi*sh*ing` is styled mid-word. -/
theorem C2_boundary_eval :
    parse_markdown (some "fi*sh*ing") =
      [⟨"fi", false, false⟩, ⟨"sh", false, true⟩, ⟨"ing", false, false⟩] ∧
    ¬parse_markdown (some "fi*sh*ing") = [⟨"fi*sh*ing", false, false⟩] := by
  decide

/-- Claim C3, behaviour of the code at the failing input: the unbalanced
fallback joins the collected run texts, in which the consumed `**` no
longer appears, so the original string is not returned verbatim. -/
theorem C3_unbalanced_eval :
    parse_markdown (some "Start **bold only") = [⟨"Start bold only", false, false⟩] ∧
    ¬parse_markdown (some "Start **bold only") = [⟨"Start **bold only", false, false⟩] := by
  decide

/-- Claim C7, counterexample: `"a\b"` contains no bold/italic delimiter,
yet `parse_markdown` consumes the backslash escape and returns a run
text different from the input. -/
theorem C7_counterexample :
    parse_markdown (some "a\\b") = [⟨"ab", false, false⟩] ∧ ¬("ab" : String) = "a\\b" := by
  decide

/-- Claim C7, witness for the amended round-trip theorem. -/
theorem C7_witness :
    parse_markdown (some "plain text") = [⟨"plain text", false, false⟩] ∧
    String.join ((parse_markdown (some "a*b **c** d")).map Run.text) =
      String.mk (specDelimitersRemoved "a*b **c** d".toList) :=
  ⟨C7_markdown_round_trip.1 "plain text" (by decide), C7_markdown_round_trip.2 "a*b **c** d"⟩

/-- Claim C5, behaviour of the code at the failing input: on a
title-role slide a `subtitle` field hits the `"title" in role`
substring test first and gets the 44pt main-title size, not the 28pt
subtitle size. -/
theorem C5_subtitle_eval :
    _determine_font_size "subtitle" ⟨1, 10⟩ ROLE_TITLE = FONT_SIZE_TITLE_SLIDE_MAIN ∧
    _determine_font_size "subtitle" ⟨9, 10⟩ ROLE_TITLE = FONT_SIZE_TITLE_SLIDE_MAIN ∧
    ¬FONT_SIZE_TITLE_SLIDE_MAIN = FONT_SIZE_TITLE_SLIDE_SUBTITLE := by
  decide

/-- Claim C4, counterexample to length monotonicity: a shorter
multi-word string wraps into more lines and gets a strictly smaller
fitted size than a longer single-word string in the same circle. -/
theorem C4_counterexample :
    ("Exceptionally High Performance Rating".toList.length <
      "Supercalifragilisticexpialidociousness".toList.length) ∧
    _fit_text_in_circle "Exceptionally High Performance Rating"
        (parse_markdown (some "Exceptionally High Performance Rating")) ⟨1, 10⟩
        TEXT_PADDING_RATIO <
      _fit_text_in_circle "Supercalifragilisticexpialidociousness"
        (parse_markdown (some "Supercalifragilisticexpialidociousness")) ⟨1, 10⟩
        TEXT_PADDING_RATIO := by
  decide

/-- Claim C4 (amended): the concrete Scenario C instance holds — in the
radius-0.1 circle the long string fits at 36pt, strictly less than the
71pt fitted for `"Hi"`. -/
theorem C4_scenario_c :
    _fit_text_in_circle "Exceptionally High Performance Rating"
        (parse_markdown (some "Exceptionally High Performance Rating")) ⟨1, 10⟩
        TEXT_PADDING_RATIO = 36 ∧
    _fit_text_in_circle "Hi" (parse_markdown (some "Hi")) ⟨1, 10⟩ TEXT_PADDING_RATIO = 71 ∧
    (36 : Int) < 71 := by
  decide

/-- Claim C6, counterexample: a title-only region set whose title is
small (`area_ratio = 0.02 ≤ 0.05`) is classified GENERAL_CONTENT, not
TITLE_SLIDE. -/
theorem C6_counterexample :
    derive_role_hint ⟨"Title 1", none, some ⟨0, 1⟩, none, some ⟨1, 10⟩, some ⟨1, 50⟩⟩ =
      "title" ∧
    layout_purpose [⟨"Title 1", none, some ⟨0, 1⟩, none, some ⟨1, 10⟩, some ⟨1, 50⟩⟩] =
      "GENERAL_CONTENT" ∧
    ¬("GENERAL_CONTENT" : String) = "TITLE_SLIDE" := by
  decide

/-- Claim C6 (amended): the classification follows the ordered rules,
with TITLE_SLIDE additionally requiring a title region of
`area_ratio > 0.05` (and tolerating one content region), and the image
rule keyed on `'Picture'` occurring in a region name. -/
theorem C6_layout_purpose (shapes : List ShapeData) :
    layout_purpose shapes =
      if (1 ≤ shapes.countP (fun s => derive_role_hint s = "title") ∧
          shapes.countP (fun s => derive_role_hint s = "body") = 0 ∧
          shapes.countP (fun s => derive_role_hint s = "content") ≤ 1) ∧
          (∃ s ∈ shapes, Frac.lt ⟨5, 100⟩ (s.area_ratio.getD (Frac.ofInt 0)) = true ∧
            derive_role_hint s = "title") then "TITLE_SLIDE"
      else if ∃ s ∈ shapes, strContains s.name "Picture" = true then "VISUAL_SLIDE"
      else if 2 ≤ shapes.countP (fun s => derive_role_hint s = "content") then
        "COMPARISON_SLIDE"
      else if 1 ≤ shapes.countP (fun s => derive_role_hint s = "body") then "CONTENT_SLIDE"
      else "GENERAL_CONTENT" := by
  simp only [layout_purpose, List.countP_eq_length_filter, List.any_eq_true,
    Bool.and_eq_true, decide_eq_true_eq]
  have himg : (0 < (shapes.filter (fun s => strContains s.name "Picture")).length) ↔
      (∃ s ∈ shapes, strContains s.name "Picture" = true) := by
    rw [← List.countP_eq_length_filter]
    exact List.countP_pos_iff
  simp only [himg, and_self]

/-- Claim C1 (amended): in the semantic rendering path, a Style
Specification with no non-whitespace run text and no bullet items
leaves the target region's text unchanged (the region is not cleared). -/
theorem C1_nondestructive_semantic (style : StyleSpec) (existingText : String)
    (placeholderFound : Bool)
    (hruns : ∀ r ∈ style.runs.getD [], (pyStrip r.text).toList = [])
    (hbul : style.bullets.getD [] = []) :
    injectFieldSemantic style existingText placeholderFound = existingText := by
  unfold injectFieldSemantic
  by_cases himg : style.semantic_role = some "image_query"
  · rw [if_pos himg]
  · rw [if_neg himg]
    cases placeholderFound with
    | false => simp
    | true =>
      have hr : (style.runs.getD []).any (fun r => !(pyStrip r.text).toList.isEmpty) = false := by
        rw [List.any_eq_false]
        intro r hrm
        rw [hruns r hrm]
        decide
      rw [hbul]
      simp only [hr, List.isEmpty_nil, Bool.not_true, Bool.or_false, Bool.not_false, if_true,
        Bool.not_eq_true]
      simp

/-- Claim C1, witness for the amended theorem. -/
theorem C1_witness :
    injectFieldSemantic ⟨some [⟨"   ", false, false⟩], some [], none, none, some "title", none⟩
      "Keep me" true = "Keep me" :=
  C1_nondestructive_semantic _ _ _ (by decide) (by decide)

/-- Claim C1, counterexample on the legacy slot-id path: the spec the
Beautifier produces for empty text (`runs = [""]`) has no non-empty
trimmed run and no bullets, yet injection clears the region. -/
theorem C1_counterexample :
    injectFieldLegacy ⟨some [⟨"", false, false⟩], none, some 16, some "LEFT", none, none⟩
      "Quarterly results" none true = "" ∧
    ¬("Quarterly results" : String) = "" := by
  decide

/-- Claim C9: a shape whose spatial properties are absent (defaulted to
0 by the parser's enrichment) is always classified `title`. -/
theorem C9_zero_geometry_title (slide_width slide_height : Int) (shape : RawShape)
    (htop : shape.top = none) (hw : shape.width = none) (hh : shape.height = none) :
    derive_role_hint (enrichShape slide_width slide_height shape) = "title" := by
  unfold enrichShape derive_role_hint
  rw [htop, hw, hh]
  simp only [Option.getD_none, Option.getD_some]
  have h1 : ∀ d : Int,
      Frac.lt (if 0 < d then Frac.dv (Frac.ofInt 0) (Frac.ofInt d) else Frac.ofInt 0)
        ⟨2, 10⟩ = true := by
    intro d
    by_cases hd : (0 : Int) < d
    · rw [if_pos hd]
      rw [show Frac.dv (Frac.ofInt 0) (Frac.ofInt d) =
        (if 1 * d < 0 then ⟨-(0 * 1), -(1 * d)⟩ else ⟨0 * 1, 1 * d⟩ : Frac) from rfl]
      by_cases hneg : 1 * d < 0
      · rw [if_pos hneg]
        show decide (-(0 * 1) * 10 < 2 * -(1 * d)) = true
        simp only [decide_eq_true_eq]
        omega
      · rw [if_neg hneg]
        show decide (0 * 1 * 10 < 2 * (1 * d)) = true
        simp only [decide_eq_true_eq]
        omega
    · rw [if_neg hd]
      rfl
  rw [h1]
  rfl

/-- Claim C9, witness: a zero-geometry group artifact on a standard
slide canvas is classified as a title. -/
theorem C9_witness :
    derive_role_hint (enrichShape 9144000 6858000 ⟨"Group 5", none, none, none, none⟩) =
      "title" :=
  C9_zero_geometry_title 9144000 6858000 ⟨"Group 5", none, none, none, none⟩ rfl rfl rfl

theorem mem_dictSet {d : List (String × StyleSpec)} {k : String} {v : StyleSpec}
    {p : String × StyleSpec} (hp : p ∈ dictSet d k v) : p ∈ d ∨ p = (k, v) := by
  unfold dictSet at hp
  split_ifs at hp
  · rcases List.mem_map.mp hp with ⟨q, hq, hqe⟩
    by_cases hk : q.1 = k
    · right
      rw [← hqe]
      simp [hk]
    · left
      rw [← hqe]
      simpa [hk] using hq
  · rcases List.mem_append.mp hp with h | h
    · exact Or.inl h
    · right
      simpa using h

theorem semanticStyleSpec_role (layout : LayoutRec) (slide_role : String)
    (slot : SlotMeta) (semantic_role : String) (raw : SemVal) :
    (semanticStyleSpec layout slide_role slot semantic_role raw).semantic_role =
      some semantic_role := by
  unfold semanticStyleSpec
  cases raw with
  | items l =>
    by_cases hb : semantic_role = "bullets"
    · simp [hb]
    · simp [hb]
  | none_ => rfl
  | text s => rfl

theorem beautifySemanticEntry_preserves (layout : LayoutRec) (slide_role : String)
    (semantic_mapping : List (String × List SlotMeta)) (acc : List (String × StyleSpec))
    (e : String × SemVal)
    (hacc : ∀ p ∈ acc, ¬p.2.semantic_role = some "image_query") :
    ∀ p ∈ beautifySemanticEntry layout slide_role semantic_mapping acc e,
      ¬p.2.semantic_role = some "image_query" := by
  intro p hp
  unfold beautifySemanticEntry at hp
  by_cases h0 : strStartsWithUnderscore e.1 = true
  · rw [if_pos h0] at hp
    exact hacc p hp
  · rw [if_neg h0] at hp
    by_cases h1 : e.1 = "image_query"
    · rw [if_pos h1] at hp
      exact hacc p hp
    · rw [if_neg h1] at hp
      cases hsl : ((semantic_mapping.find? (fun pr => pr.1 = e.1)).map Prod.snd).getD [] with
      | nil =>
        rw [hsl] at hp
        exact hacc p hp
      | cons slot tail =>
        rw [hsl] at hp
        have hp2 : p ∈ (match slot.slot_id with
            | none => acc
            | some slot_id =>
              dictSet acc (toString slot_id)
                (semanticStyleSpec layout slide_role slot e.1 e.2)) := hp
        cases hid : slot.slot_id with
        | none =>
          rw [hid] at hp2
          exact hacc p hp2
        | some slot_id =>
          rw [hid] at hp2
          rcases mem_dictSet hp2 with h | h
          · exact hacc p h
          · rw [h]
            simp only [semanticStyleSpec_role]
            intro hc
            exact h1 (by injection hc)

/-- Claim C10: the Beautifier's semantic path never emits a Style
Specification tagged `image_query`, and the Injector's semantic path
leaves the region untouched for any specification so tagged. -/
theorem C10_image_query_dropped :
    (∀ (semantic_content : List (String × SemVal)) (layout : LayoutRec)
        (slide_role : String) (semantic_mapping : List (String × List SlotMeta)),
      ∀ p ∈ _beautify_semantic_content semantic_content layout slide_role semantic_mapping,
        ¬p.2.semantic_role = some "image_query") ∧
    (∀ (style : StyleSpec) (existingText : String) (placeholderFound : Bool),
      style.semantic_role = some "image_query" →
      injectFieldSemantic style existingText placeholderFound = existingText) := by
  constructor
  · intro semantic_content layout slide_role semantic_mapping
    unfold _beautify_semantic_content
    have main : ∀ (l : List (String × SemVal)) (acc : List (String × StyleSpec)),
        (∀ p ∈ acc, ¬p.2.semantic_role = some "image_query") →
        ∀ p ∈ l.foldl (beautifySemanticEntry layout slide_role semantic_mapping) acc,
          ¬p.2.semantic_role = some "image_query" := by
      intro l
      induction l with
      | nil =>
        intro acc hacc p hp
        exact hacc p hp
      | cons e rest ih =>
        intro acc hacc p hp
        rw [List.foldl_cons] at hp
        exact ih _ (beautifySemanticEntry_preserves layout slide_role semantic_mapping acc e hacc) p hp
    exact main semantic_content [] (by simp)
  · intro style existingText placeholderFound h
    unfold injectFieldSemantic
    rw [if_pos h]

/-- Claim C10, witness. -/
theorem C10_witness :
    ¬(("10", (⟨some [⟨"Big", false, false⟩], none, none, some "CENTER", some "title",
        some "MIDDLE"⟩ : StyleSpec)) : String × StyleSpec).2.semantic_role =
        some "image_query" ∧
    injectFieldSemantic ⟨some [⟨"sunset", false, false⟩], none, none, none,
        some "image_query", none⟩ "Template text" true = "Template text" :=
  ⟨C10_image_query_dropped.1 [("image_query", SemVal.text "sunset"), ("title", SemVal.text "Big")]
      wLayout "TITLE" wMapping _ (by decide),
   C10_image_query_dropped.2 _ _ _ rfl⟩

/-- Claim C8: the Beautifier errors exactly when the registry has no
layouts; with a non-empty registry it always returns one styled slide
per manifest slide, and a slide whose `layout_index` matches no layout
is styled against the first registry layout (whose index it also
records). -/
theorem C8_beautifier_entry :
    (∀ (manifest : List ManifestSlide) (registry : Registry),
      (∃ e, beautifier_node manifest registry = Except.error e) ↔ registry.layouts = []) ∧
    (∀ (manifest : List ManifestSlide) (registry : Registry) (d : LayoutRec)
        (rest : List LayoutRec), registry.layouts = d :: rest →
      beautifier_node manifest registry =
        Except.ok (manifest.map (beautifySlide registry.layouts d)) ∧
      ∀ slide ∈ manifest,
        (∀ l ∈ registry.layouts, ¬slide.layout_index = some l.layout_index) →
        beautifySlide registry.layouts d slide =
          beautifySlideWith d d.layout_index slide) := by
  constructor
  · intro m reg
    constructor
    · rintro ⟨e, he⟩
      cases hl : reg.layouts with
      | nil => rfl
      | cons a as =>
        unfold beautifier_node at he
        rw [hl] at he
        cases he
    · intro hl
      refine ⟨"Registry contains no layouts - cannot beautify", ?_⟩
      unfold beautifier_node
      rw [hl]
  · intro m reg d rest hreg
    constructor
    · unfold beautifier_node
      rw [hreg]
    · intro slide hs hnone
      unfold beautifySlide
      have hlk : lookupLayout reg.layouts slide.layout_index = none := by
        unfold lookupLayout
        cases hidx : slide.layout_index with
        | none => rfl
        | some k =>
          rw [List.find?_eq_none]
          intro l hl
          simp only [decide_eq_true_eq]
          intro heq
          exact hnone l (List.mem_reverse.mp hl) (by rw [hidx, heq])
      rw [hlk]

/-- Claim C8, witness: a one-layout registry with an unknown manifest
index 999 substitutes layout 0, and an empty registry errors. -/
theorem C8_witness :
    (beautifier_node [wSlideUnknown] wRegistry =
      Except.ok ([wSlideUnknown].map (beautifySlide wRegistry.layouts wLayout)) ∧
     beautifySlide wRegistry.layouts wLayout wSlideUnknown =
      beautifySlideWith wLayout wLayout.layout_index wSlideUnknown) ∧
    (∃ e, beautifier_node [] (⟨[]⟩ : Registry) = Except.error e) :=
  ⟨⟨(C8_beautifier_entry.2 [wSlideUnknown] wRegistry wLayout [] rfl).1,
    (C8_beautifier_entry.2 [wSlideUnknown] wRegistry wLayout [] rfl).2 wSlideUnknown
      (by decide) (by decide)⟩,
   (C8_beautifier_entry.1 [] ⟨[]⟩).mpr rfl⟩
